import Mathlib

/-! Verification of the data access and integrity engine of the
pmp-backoffice-generator repository: a shallow embedding of its validation
engine (src/validation.rs), relationship integrity engine
(src/relationships.rs), pagination translation (src/data_source.rs) and the
mutation-handler orchestration (src/server.rs), together with theorems
settling the specification claims about them.

Rust conventions mapped to Lean: `serde_json::Value` becomes the mutual
inductive `Pmp.Value`; `HashMap<String, Value>` records become association
lists with first-match lookup; `Result<T, anyhow::Error>` becomes
`Except String T`; `f64` rule bounds and numeric JSON values are modelled
as rationals; `usize` becomes `Nat` with underflow made explicit where it
matters (`PaginationParams.new`).  Backend adapters are modelled as
functions from query strings to results, and every adapter call made by the
engine is recorded in an explicit event trace so that claims about which
backend operations happen (and in which order) are provable.
-/

namespace Pmp

-- The semi-structured value type, mirroring `serde_json::Value`
-- (null, boolean, number, string, array, object).  Arrays and objects are
-- mutual inductives rather than nested `List`s so that decidable equality
-- can be constructed explicitly.
mutual
inductive Value where
  | null
  | bool (b : Bool)
  | num (q : ℚ)
  | str (s : String)
  | arr (elems : ValueList)
  | obj (fields : ValueFields)
deriving Repr
inductive ValueList where
  | nil
  | cons (head : Value) (tail : ValueList)
deriving Repr
inductive ValueFields where
  | nil
  | cons (key : String) (value : Value) (tail : ValueFields)
deriving Repr
end

-- Structural boolean equality on values, mirroring `serde_json::Value`
-- `PartialEq` (numbers are compared as numbers in this model).
mutual
def Value.beq : Value → Value → Bool
  | .null, .null => true
  | .bool a, .bool b => a == b
  | .num a, .num b => a == b
  | .str a, .str b => a == b
  | .arr a, .arr b => ValueList.beq a b
  | .obj a, .obj b => ValueFields.beq a b
  | _, _ => false
def ValueList.beq : ValueList → ValueList → Bool
  | .nil, .nil => true
  | .cons a as, .cons b bs => Value.beq a b && ValueList.beq as bs
  | _, _ => false
def ValueFields.beq : ValueFields → ValueFields → Bool
  | .nil, .nil => true
  | .cons k1 v1 as, .cons k2 v2 bs => k1 == k2 && Value.beq v1 v2 && ValueFields.beq as bs
  | _, _ => false
end

mutual
theorem Value.eq_of_beq : ∀ {a b : Value}, Value.beq a b = true → a = b
  | .null, .null, _ => rfl
  | .bool _, .bool _, h => by simp [Value.beq] at h; simp [h]
  | .num _, .num _, h => by simp [Value.beq] at h; simp [h]
  | .str _, .str _, h => by simp [Value.beq] at h; simp [h]
  | .arr a, .arr b, h => by
      simp only [Value.beq] at h
      exact congrArg Value.arr (ValueList.eqList_of_beq h)
  | .obj a, .obj b, h => by
      simp only [Value.beq] at h
      exact congrArg Value.obj (ValueFields.eqFields_of_beq h)
  | .null, .bool _, h => by simp [Value.beq] at h
  | .null, .num _, h => by simp [Value.beq] at h
  | .null, .str _, h => by simp [Value.beq] at h
  | .null, .arr _, h => by simp [Value.beq] at h
  | .null, .obj _, h => by simp [Value.beq] at h
  | .bool _, .null, h => by simp [Value.beq] at h
  | .bool _, .num _, h => by simp [Value.beq] at h
  | .bool _, .str _, h => by simp [Value.beq] at h
  | .bool _, .arr _, h => by simp [Value.beq] at h
  | .bool _, .obj _, h => by simp [Value.beq] at h
  | .num _, .null, h => by simp [Value.beq] at h
  | .num _, .bool _, h => by simp [Value.beq] at h
  | .num _, .str _, h => by simp [Value.beq] at h
  | .num _, .arr _, h => by simp [Value.beq] at h
  | .num _, .obj _, h => by simp [Value.beq] at h
  | .str _, .null, h => by simp [Value.beq] at h
  | .str _, .bool _, h => by simp [Value.beq] at h
  | .str _, .num _, h => by simp [Value.beq] at h
  | .str _, .arr _, h => by simp [Value.beq] at h
  | .str _, .obj _, h => by simp [Value.beq] at h
  | .arr _, .null, h => by simp [Value.beq] at h
  | .arr _, .bool _, h => by simp [Value.beq] at h
  | .arr _, .num _, h => by simp [Value.beq] at h
  | .arr _, .str _, h => by simp [Value.beq] at h
  | .arr _, .obj _, h => by simp [Value.beq] at h
  | .obj _, .null, h => by simp [Value.beq] at h
  | .obj _, .bool _, h => by simp [Value.beq] at h
  | .obj _, .num _, h => by simp [Value.beq] at h
  | .obj _, .str _, h => by simp [Value.beq] at h
  | .obj _, .arr _, h => by simp [Value.beq] at h
theorem ValueList.eqList_of_beq : ∀ {a b : ValueList}, ValueList.beq a b = true → a = b
  | .nil, .nil, _ => rfl
  | .cons a as, .cons b bs, h => by
      simp only [ValueList.beq, Bool.and_eq_true] at h
      rw [Value.eq_of_beq h.1, ValueList.eqList_of_beq h.2]
  | .nil, .cons _ _, h => by simp [ValueList.beq] at h
  | .cons _ _, .nil, h => by simp [ValueList.beq] at h
theorem ValueFields.eqFields_of_beq : ∀ {a b : ValueFields}, ValueFields.beq a b = true → a = b
  | .nil, .nil, _ => rfl
  | .cons k1 v1 as, .cons k2 v2 bs, h => by
      simp only [ValueFields.beq, Bool.and_eq_true] at h
      obtain ⟨⟨hk, hv⟩, ht⟩ := h
      rw [eq_of_beq hk, Value.eq_of_beq hv, ValueFields.eqFields_of_beq ht]
  | .nil, .cons _ _ _, h => by simp [ValueFields.beq] at h
  | .cons _ _ _, .nil, h => by simp [ValueFields.beq] at h
end

mutual
theorem Value.beq_refl : ∀ (a : Value), Value.beq a a = true
  | .null => rfl
  | .bool _ => by simp [Value.beq]
  | .num _ => by simp [Value.beq]
  | .str _ => by simp [Value.beq]
  | .arr a => by simp only [Value.beq]; exact ValueList.beqList_refl a
  | .obj a => by simp only [Value.beq]; exact ValueFields.beqFields_refl a
theorem ValueList.beqList_refl : ∀ (a : ValueList), ValueList.beq a a = true
  | .nil => rfl
  | .cons a as => by
      simp only [ValueList.beq, Bool.and_eq_true]
      exact ⟨Value.beq_refl a, ValueList.beqList_refl as⟩
theorem ValueFields.beqFields_refl : ∀ (a : ValueFields), ValueFields.beq a a = true
  | .nil => rfl
  | .cons k v as => by
      simp only [ValueFields.beq, Bool.and_eq_true]
      exact ⟨⟨by simp, Value.beq_refl v⟩, ValueFields.beqFields_refl as⟩
end

instance : DecidableEq Value := fun a b =>
  if h : Value.beq a b = true then .isTrue (Value.eq_of_beq h)
  else .isFalse (fun he => h (he ▸ Value.beq_refl a))

/-- Rust `Value::is_null`. -/
def Value.isNull : Value → Bool
  | .null => true
  | _ => false

/-- Rust `Value::as_str` (`Some` only for strings). -/
def Value.asStr? : Value → Option String
  | .str s => some s
  | _ => none

/-- Rust `Value::as_f64` on this model: numbers only (in `serde_json` every
stored number converts to `f64`). -/
def Value.asNum? : Value → Option ℚ
  | .num q => some q
  | _ => none

/-- Membership test of a value in a JSON array, mirroring
`Vec::contains` under `serde_json` value equality. -/
def ValueList.containsVal : ValueList → Value → Bool
  | .nil, _ => false
  | .cons h t, v => (h = v : Bool) || ValueList.containsVal t v

/-- A record, mirroring `HashMap<String, Value>`: an association list with
first-match lookup (`data.lookup key` is Rust
`data.get(key)` / `data.contains_key`). -/
abbrev Record := List (String × Value)

/-- Sublist (contiguous) search over character lists; `strContainsSubstr a b`
mirrors Rust `a.contains(b)` substring search (for valid UTF-8, byte-level
substring occurrence coincides with character-level occurrence). -/
def listHasSublist : List Char → List Char → Bool
  | hay@(_ :: t), needle => needle.isPrefixOf hay || listHasSublist t needle
  | [], needle => needle.isEmpty

/-- Rust `str::contains` for a substring pattern. -/
def strContainsSubstr (a b : String) : Bool :=
  listHasSublist a.data b.data

/-- The anchored regular expression of the `Phone` rule in
src/validation.rs (`plus? [1-9] digit-1-to-14`), written out as a direct
character-list check. -/
def phoneDigitsPart : List Char → Bool
  | c :: rest =>
    (decide (49 ≤ c.toNat) && decide (c.toNat ≤ 57)) && rest.all Char.isDigit
      && decide (1 ≤ rest.length) && decide (rest.length ≤ 14)
  | [] => false

/-- Full-string match of the phone regex (optional leading plus sign). -/
def isPhoneString (s : String) : Bool :=
  match s.data with
  | c :: rest => if c == Char.ofNat 43 then phoneDigitsPart rest else phoneDigitsPart (c :: rest)
  | [] => false

/-- The anchored SSN regex of src/validation.rs: three digits, dash, two
digits, dash, four digits. -/
def isSsnString (s : String) : Bool :=
  match s.data with
  | [a, b, c, d, e, f, g, h, i, j, k] =>
    a.isDigit && b.isDigit && c.isDigit && (d == Char.ofNat 45)
      && e.isDigit && f.isDigit && (g == Char.ofNat 45)
      && h.isDigit && i.isDigit && j.isDigit && k.isDigit
  | _ => false

/-- One character of the hexadecimal character class `[0-9a-fA-F]`. -/
def isHexChar (c : Char) : Bool :=
  c.isDigit || (decide (97 ≤ c.toNat) && decide (c.toNat ≤ 102))
    || (decide (65 ≤ c.toNat) && decide (c.toNat ≤ 70))

/-- The anchored hex regex of src/validation.rs: one or more hex digits. -/
def isHexString (s : String) : Bool :=
  !s.isEmpty && s.data.all isHexChar

/-- The comparison operator of a validation condition
(config.rs `ConditionOperator`; `In` is spelled `inSet` because `in` is a
Lean keyword). -/
inductive ConditionOperator where
  | equals
  | notEquals
  | greaterThan
  | lessThan
  | greaterThanOrEqual
  | lessThanOrEqual
  | contains
  | notContains
  | inSet
  | notIn
deriving DecidableEq, Repr

/-- A validation condition (config.rs `ValidationCondition`). -/
structure ValidationCondition where
  field : String
  operator : ConditionOperator
  value : Value
deriving Repr

-- The validation rule kind (config.rs `ValidationType`).  The embedding
-- covers the rule kinds whose checks are self-contained computations in
-- src/validation.rs; the kinds whose check delegates to a general regular
-- expression engine, a UUID/JSON parser, or the system clock
-- (Pattern, Email, Url, Ipv4, Ipv6, Uuid, Isbn, Iban, PostalCode, Base64,
-- Json, MacAddress, StrongPassword, AlphaNumeric, DateRange, Future, Past,
-- MinAge, MaxAge) are outside it.  Each covered arm is translated exactly,
-- including the log-and-pass arms (CustomFunction, UniqueIn, FileSize,
-- FileType).
inductive ValidationType where
  | required (value : Bool)
  | minLength (value : Nat)
  | maxLength (value : Nat)
  | min (value : ℚ)
  | max (value : ℚ)
  | phone
  | customFunction (functionName : String)
  | dependsOn (field : String) (expectedValue : Value)
  | uniqueIn (fieldList : List String)
  | matchField (field : String)
  | creditCard
  | fileSize (maxSizeMb : ℚ)
  | fileType (allowedTypes : List String)
  | luhn
  | ssn
  | hex
  | ascii
  | notEmpty
  | between (min max : ℚ)
deriving Repr

/-- A validation rule attached to a field (config.rs `ValidationRule`). -/
structure ValidationRule where
  rule_type : ValidationType
  message : Option String
  condition : Option ValidationCondition
deriving Repr

/-- A field definition (config.rs `FieldConfig`).  The `field_type` tag and
its kind-specific configuration are never read by the validation engine and
are omitted. -/
structure FieldConfig where
  id : String
  name : String
  required : Bool
  editable : Bool
  visible : Bool
  default_value : Option Value
  placeholder : Option String
  help_text : Option String
  validations : List ValidationRule
deriving Repr

/-- A validation error (validation.rs `ValidationError`). -/
structure ValidationError where
  field : String
  message : String
deriving DecidableEq, Repr

/-- Evaluation of a validation condition against the whole record
(validation.rs `evaluate_condition`): equality operators compare JSON
values; ordering operators require numeric operands on both sides and a
present field, and evaluate to `false` on any type mismatch; containment
operators require string operands; membership operators require an array
on the condition side. -/
def evaluate_condition (data : Record) (condition : ValidationCondition) : Bool :=
  let field_value := data.lookup condition.field
  match condition.operator with
  | .equals => decide (field_value = some condition.value)
  | .notEquals => decide (field_value ≠ some condition.value)
  | .greaterThan =>
    match field_value, condition.value with
    | some (.num a), .num b => decide (a > b)
    | _, _ => false
  | .lessThan =>
    match field_value, condition.value with
    | some (.num a), .num b => decide (a < b)
    | _, _ => false
  | .greaterThanOrEqual =>
    match field_value, condition.value with
    | some (.num a), .num b => decide (a ≥ b)
    | _, _ => false
  | .lessThanOrEqual =>
    match field_value, condition.value with
    | some (.num a), .num b => decide (a ≤ b)
    | _, _ => false
  | .contains =>
    match field_value, condition.value with
    | some (.str a), .str b => strContainsSubstr a b
    | _, _ => false
  | .notContains =>
    match field_value, condition.value with
    | some (.str a), .str b => !strContainsSubstr a b
    | _, _ => false
  | .inSet =>
    match field_value, condition.value with
    | some v, .arr xs => ValueList.containsVal xs v
    | _, _ => false
  | .notIn =>
    match field_value, condition.value with
    | some v, .arr xs => !ValueList.containsVal xs v
    | _, _ => false

/-- The decimal digits of a string, as extracted by `validate_luhn`
(validation.rs): Rust filters `char::is_numeric` and then maps
`to_digit(10)`, whose composition keeps exactly the ASCII digits. -/
def luhnDigits (s : String) : List Nat :=
  s.data.filterMap fun c => if c.isDigit then some (c.toNat - 48) else none

/-- The per-position Luhn transformation: positions are indexed from the
right, every second digit is doubled and 9 is subtracted from a doubled
value exceeding 9. -/
def luhnTransform (idx digit : Nat) : Nat :=
  if idx % 2 == 1 then
    let doubled := digit * 2
    if doubled > 9 then doubled - 9 else doubled
  else digit

/-- The shared Luhn checksum routine (validation.rs `validate_luhn`):
fewer than two digits is invalid; otherwise the transformed digit sum must
be divisible by 10. -/
def validate_luhn (s : String) : Bool :=
  let digits := luhnDigits s
  if digits.length < 2 then false
  else
    let checksum := (digits.reverse.enum.map fun p => luhnTransform p.1 p.2).sum
    checksum % 10 == 0

/-- Validation of a single value against one rule (validation.rs
`validate_rule`).  String rules apply only when the value is a string
(`value.as_str`), numeric rules only when it is a number (`value.as_f64`);
otherwise the rule passes, exactly as in the source.  String length is
UTF-8 byte length (`str::len`). -/
def validate_rule (value : Value) (rule : ValidationType) (field : FieldConfig)
    (all_data : Record) : Except String Unit :=
  match rule with
  | .required r =>
    if r && value.isNull then .error (field.name ++ " is required") else .ok ()
  | .minLength m =>
    match value.asStr? with
    | some s =>
      if s.utf8ByteSize < m then
        .error (field.name ++ " must be at least " ++ toString m ++ " characters")
      else .ok ()
    | none => .ok ()
  | .maxLength m =>
    match value.asStr? with
    | some s =>
      if s.utf8ByteSize > m then
        .error (field.name ++ " must be at most " ++ toString m ++ " characters")
      else .ok ()
    | none => .ok ()
  | .min m =>
    match value.asNum? with
    | some n =>
      if n < m then .error (field.name ++ " must be at least " ++ toString m) else .ok ()
    | none => .ok ()
  | .max m =>
    match value.asNum? with
    | some n =>
      if n > m then .error (field.name ++ " must be at most " ++ toString m) else .ok ()
    | none => .ok ()
  | .phone =>
    match value.asStr? with
    | some s =>
      if !isPhoneString s then .error (field.name ++ " must be a valid phone number")
      else .ok ()
    | none => .ok ()
  | .customFunction _ => .ok ()
  | .dependsOn dep_field expected_value =>
    match all_data.lookup dep_field with
    | some dep_value =>
      if dep_value ≠ expected_value then
        .error (field.name ++ " depends on " ++ dep_field ++ " having a specific value")
      else .ok ()
    | none => .ok ()
  | .uniqueIn _ => .ok ()
  | .matchField match_field =>
    match all_data.lookup match_field with
    | some match_value =>
      if value ≠ match_value then .error (field.name ++ " must match " ++ match_field)
      else .ok ()
    | none => .ok ()
  | .creditCard =>
    match value.asStr? with
    | some s =>
      if !validate_luhn s then .error (field.name ++ " must be a valid credit card number")
      else .ok ()
    | none => .ok ()
  | .fileSize _ => .ok ()
  | .fileType _ => .ok ()
  | .luhn =>
    match value.asStr? with
    | some s =>
      if !validate_luhn s then .error (field.name ++ " failed Luhn check") else .ok ()
    | none => .ok ()
  | .ssn =>
    match value.asStr? with
    | some s =>
      if !isSsnString s then .error (field.name ++ " must be a valid SSN (XXX-XX-XXXX)")
      else .ok ()
    | none => .ok ()
  | .hex =>
    match value.asStr? with
    | some s =>
      if !isHexString s then .error (field.name ++ " must be valid hexadecimal") else .ok ()
    | none => .ok ()
  | .ascii =>
    match value.asStr? with
    | some s =>
      if !(s.data.all fun c => decide (c.toNat ≤ 127)) then
        .error (field.name ++ " must contain only ASCII characters")
      else .ok ()
    | none => .ok ()
  | .notEmpty =>
    match value.asStr? with
    | some s =>
      if s.trim.isEmpty then .error (field.name ++ " must not be empty") else .ok ()
    | none => .ok ()
  | .between mn mx =>
    match value.asNum? with
    | some n =>
      if n < mn || n > mx then
        .error (field.name ++ " must be between " ++ toString mn ++ " and " ++ toString mx)
      else .ok ()
    | none => .ok ()

/-- The error list contributed by one rule check once its condition has
passed: validation.rs lines 53-58 (the custom message replaces the rule
error when present). -/
def ruleCheckErrors (data : Record) (value : Value) (field : FieldConfig)
    (v : ValidationRule) : List ValidationError :=
  match validate_rule value v.rule_type field data with
  | .ok _ => []
  | .error e => [⟨field.id, v.message.getD e⟩]

/-- The inner rule loop of `validate_data` (validation.rs lines 41-59),
with the running error accumulator made explicit: a rule whose condition
evaluates false is skipped (`continue`), otherwise its check may append one
error. -/
def validateRulesLoop (data : Record) (value : Value) (field : FieldConfig) :
    List ValidationRule → List ValidationError → List ValidationError
  | [], errors => errors
  | v :: rest, errors =>
    match v.condition with
    | some condition =>
      if evaluate_condition data condition then
        validateRulesLoop data value field rest (errors ++ ruleCheckErrors data value field v)
      else
        validateRulesLoop data value field rest errors
    | none => validateRulesLoop data value field rest (errors ++ ruleCheckErrors data value field v)

/-- The outer field loop of `validate_data` (validation.rs lines 16-60)
with the running error accumulator made explicit.  A missing or null
required field appends the single required-error and skips the rules of
that field (`continue`); a missing, or null non-required, field is skipped
entirely; otherwise every rule of the field is evaluated. -/
def validateFieldsLoop (data : Record) :
    List FieldConfig → List ValidationError → List ValidationError
  | [], errors => errors
  | field :: rest, errors =>
    let errors2 :=
      match data.lookup field.id with
      | none =>
        if field.required then errors ++ [⟨field.id, field.name ++ " is required"⟩]
        else errors
      | some value =>
        if field.required && value.isNull then
          errors ++ [⟨field.id, field.name ++ " is required"⟩]
        else if value.isNull && !field.required then errors
        else validateRulesLoop data value field field.validations errors
    validateFieldsLoop data rest errors2

/-- Validation of a record against field configurations (validation.rs
`validate_data`).  The source returns `Result<Vec<ValidationError>>` and
its body always returns `Ok`; the accumulated error list is the payload. -/
def validate_data (data : Record) (fields : List FieldConfig) :
    Except String (List ValidationError) :=
  .ok (validateFieldsLoop data fields [])

/-- Specification-side description of the contribution of one rule: no error
when the attached condition evaluates false, otherwise the outcome of the
rule check. -/
def ruleViolation (data : Record) (value : Value) (field : FieldConfig)
    (v : ValidationRule) : List ValidationError :=
  match v.condition with
  | some condition =>
    if evaluate_condition data condition then ruleCheckErrors data value field v else []
  | none => ruleCheckErrors data value field v

/-- Specification-side description of the violations of one field, independent
of every other field: the required-error alone for a missing/null required
field, nothing for an absent or null optional field, and otherwise the
concatenation of the per-rule contributions. -/
def fieldViolations (data : Record) (field : FieldConfig) : List ValidationError :=
  match data.lookup field.id with
  | none =>
    if field.required then [⟨field.id, field.name ++ " is required"⟩] else []
  | some value =>
    if field.required && value.isNull then [⟨field.id, field.name ++ " is required"⟩]
    else if value.isNull && !field.required then []
    else field.validations.flatMap (ruleViolation data value field)

/-- Modelled from the spec: the relationship-kind tag (one-to-one,
one-to-many, many-to-one, many-to-many with a junction-table descriptor).
The `RelationshipType` declaration itself is absent from the src snapshot
of config.rs although relationships.rs consumes it; the variant set and
the junction fields are taken from spec section 3 and from the patterns
matched in relationships.rs. -/
inductive RelationshipType where
  | oneToOne
  | oneToMany
  | manyToOne
  | manyToMany (junction_table : String) (from_junction_field : String)
      (to_junction_field : String)
deriving DecidableEq, Repr

/-- Modelled from the spec: a declared relationship (from-section,
from-field, to-section, to-field, kind tag, cascade-delete flag, and the
id used in error reports).  The `RelationshipConfig` declaration is absent
from the src snapshot of config.rs; the fields are those of spec section 3
and those read by relationships.rs. -/
structure RelationshipConfig where
  id : String
  from_section : String
  from_field : String
  to_section : String
  to_field : String
  relationship_type : RelationshipType
  cascade_delete : Bool
deriving Repr

/-- An action bound to a named data source (config.rs `ActionConfig`).
The action-kind payload and required scopes are not read by the embedded
functions and are omitted; the form fields are passed to the handler
separately. -/
structure ActionConfig where
  id : String
  name : String
  data_source : String
  query : Option String
  endpoint : Option String
deriving Repr

/-- A section: schema plus routing (config.rs `SectionConfig`). -/
structure SectionConfig where
  id : String
  name : String
  actions : List ActionConfig
deriving Repr

/-- The backoffice schema snapshot (config.rs `BackofficeConfig`), with the
relationship list that relationships.rs reads from it (`relationships` is
likewise absent from the src snapshot of config.rs and is modelled from
the spec). -/
structure BackofficeConfig where
  id : String
  name : String
  sections : List SectionConfig
  relationships : List RelationshipConfig
deriving Repr

/-- One observable backend-adapter call: the engine records a `query` event
for every `execute_query` and a `mutation` event for every
`execute_mutation` it issues, keyed by the data-source name. -/
inductive BackendEvent where
  | query (data_source : String) (q : String)
  | mutation (data_source : String) (q : String) (data : Record)
deriving DecidableEq, Repr

/-- Whether an event is a read (an `execute_query` call). -/
def BackendEvent.isQuery : BackendEvent → Bool
  | .query _ _ => true
  | .mutation _ _ _ => false

/-- A backend adapter, reduced to the two-operation `DataSource` contract
of data_source.rs.  An unchanged backend is a fixed pair of functions;
queries carry the optional parameter map the trait accepts. -/
structure DataSource where
  executeQuery : String → Option Record → Except String (List Record)
  executeMutation : String → Record → Except String Value

/-- The named adapter map built per request (`HashMap<String,
Box<dyn DataSource>>`). -/
abbrev DataSources := List (String × DataSource)

/-- A relationship validation error (relationships.rs
`RelationshipError`). -/
structure RelationshipError where
  relationship_id : String
  field : String
  message : String
deriving DecidableEq, Repr

/-- The SQL existence-check text built by `validate_foreign_keys`
(relationships.rs lines 53-59); a non-string foreign-key value is
interpolated as the empty string, exactly as `as_str().unwrap_or("")`. -/
def fkQueryString (r : RelationshipConfig) (fk_value : Value) : String :=
  "SELECT " ++ r.to_field ++ " FROM " ++ r.to_section ++ " WHERE " ++ r.to_field
    ++ " = \x27" ++ (fk_value.asStr?.getD "") ++ "\x27"

/-- The error pushed when the existence query returns no rows
(relationships.rs lines 81-90). -/
def fkMissingError (r : RelationshipConfig) (fk_value : Value) : RelationshipError :=
  ⟨r.id, r.from_field,
    "Referenced " ++ r.to_section ++ " with " ++ r.to_field ++ " = "
      ++ (fk_value.asStr?.getD "(non-string)") ++ " does not exist"⟩

/-- The error pushed when the existence query itself fails
(relationships.rs lines 93-104). -/
def fkFailedError (r : RelationshipConfig) (e : String) : RelationshipError :=
  ⟨r.id, r.from_field, "Failed to validate relationship: " ++ e⟩

/-- The relationship loop of `validate_foreign_keys` (relationships.rs
lines 24-107) with the error accumulator and the event trace explicit.
An absent or null foreign-key value skips the relationship; section,
action and data-source lookup failures abort the whole function;
one-to-many and many-to-many relationships are skipped after those
lookups; otherwise the existence query is issued, an empty result or a
query error each append exactly one error, and a non-empty result appends
none. -/
def fkLoop (data : Record) (backoffice : BackofficeConfig) (data_sources : DataSources) :
    List RelationshipConfig → List RelationshipError → List BackendEvent →
    Except String (List RelationshipError) × List BackendEvent
  | [], errors, trace => (.ok errors, trace)
  | r :: rest, errors, trace =>
    match data.lookup r.from_field with
    | none => fkLoop data backoffice data_sources rest errors trace
    | some fk_value =>
      if fk_value.isNull then fkLoop data backoffice data_sources rest errors trace
      else
        match backoffice.sections.find? (fun s => s.id == r.to_section) with
        | none => (.error ("Target section not found: " ++ r.to_section), trace)
        | some target_section =>
          match target_section.actions.head? with
          | none => (.error "No actions found in target section", trace)
          | some target_action =>
            match data_sources.lookup target_action.data_source with
            | none => (.error ("Data source not found: " ++ target_action.data_source), trace)
            | some ds =>
              match r.relationship_type with
              | .oneToMany => fkLoop data backoffice data_sources rest errors trace
              | .manyToMany _ _ _ => fkLoop data backoffice data_sources rest errors trace
              | _ =>
                let query := fkQueryString r fk_value
                let trace2 := trace ++ [.query target_action.data_source query]
                match ds.executeQuery query none with
                | .ok results =>
                  if results.isEmpty then
                    fkLoop data backoffice data_sources rest
                      (errors ++ [fkMissingError r fk_value]) trace2
                  else
                    fkLoop data backoffice data_sources rest errors trace2
                | .error e =>
                  fkLoop data backoffice data_sources rest
                    (errors ++ [fkFailedError r e]) trace2

/-- Foreign-key validation before a mutation (relationships.rs
`validate_foreign_keys`): processes every relationship whose
`from_section` is the given section, in declaration order. -/
def validate_foreign_keys (data : Record) (section_id : String)
    (backoffice : BackofficeConfig) (data_sources : DataSources) :
    Except String (List RelationshipError) × List BackendEvent :=
  fkLoop data backoffice data_sources
    (backoffice.relationships.filter fun r => r.from_section == section_id) [] []

/-- One lowercase hexadecimal digit, for JSON control-character escapes. -/
def hexDigitStr (n : Nat) : String :=
  String.singleton (if n < 10 then Char.ofNat (48 + n) else Char.ofNat (87 + n))

/-- JSON escaping of one character, following the `serde_json` serializer:
quote, backslash and the named control characters get two-character
escapes, any other control character a `u00`-style escape. -/
def escapeJsonChar (c : Char) : String :=
  if c == Char.ofNat 34 then "\\\""
  else if c == Char.ofNat 92 then "\\\\"
  else if c == Char.ofNat 8 then "\\b"
  else if c == Char.ofNat 12 then "\\f"
  else if c == Char.ofNat 10 then "\\n"
  else if c == Char.ofNat 13 then "\\r"
  else if c == Char.ofNat 9 then "\\t"
  else if decide (c.toNat < 32) then
    "\\u00" ++ hexDigitStr (c.toNat / 16) ++ hexDigitStr (c.toNat % 16)
  else String.singleton c

/-- JSON rendering of a string, including the surrounding quotes. -/
def escapeJsonString (s : String) : String :=
  "\"" ++ s.data.foldl (fun acc c => acc ++ escapeJsonChar c) "" ++ "\""

-- JSON serialization of a value, mirroring the `Display` implementation of
-- `serde_json::Value` that Rust `to_string()` invokes in
-- `handle_cascade_delete` (a string id therefore serializes WITH quotes).
-- Non-integral numbers are rendered in num/den form, a model artifact
-- (serde would print a decimal float); integral numbers print exactly.
mutual
def Value.toJsonString : Value → String
  | .null => "null"
  | .bool b => if b then "true" else "false"
  | .num q => if q.den = 1 then toString q.num else toString q.num ++ "/" ++ toString q.den
  | .str s => escapeJsonString s
  | .arr xs => "[" ++ ValueList.jsonItems xs ++ "]"
  | .obj fs => "\x7b" ++ ValueFields.jsonItems fs ++ "\x7d"
def ValueList.jsonItems : ValueList → String
  | .nil => ""
  | .cons h .nil => Value.toJsonString h
  | .cons h (.cons h2 t) => Value.toJsonString h ++ "," ++ ValueList.jsonItems (.cons h2 t)
def ValueFields.jsonItems : ValueFields → String
  | .nil => ""
  | .cons k v .nil => escapeJsonString k ++ ":" ++ Value.toJsonString v
  | .cons k v (.cons k2 v2 t) =>
    escapeJsonString k ++ ":" ++ Value.toJsonString v ++ ","
      ++ ValueFields.jsonItems (.cons k2 v2 t)
end

/-- A planned cascade operation kind (relationships.rs
`CascadeOperationType`; `SetNull` is declared but never executed). -/
inductive CascadeOperationType where
  | delete
  | deleteJunction
  | setNull
deriving DecidableEq, Repr

/-- A planned cascade operation (relationships.rs `CascadeOperation`).
The source field `section` is renamed `section_id` because `section` is a
Lean keyword. -/
structure CascadeOperation where
  operation_type : CascadeOperationType
  section_id : String
  record_id : String
  relationship_id : String
deriving DecidableEq, Repr

/-- The result of cascade planning: the operation list (or a lookup
error), with the trace of adapter calls made while planning. -/
abbrev CascadeResult := Except String (List CascadeOperation) × List BackendEvent

/-- The dependent-record query text of `handle_cascade_delete`
(relationships.rs lines 161-164). -/
def cascadeQueryString (r : RelationshipConfig) (record_id : String) : String :=
  "SELECT * FROM " ++ r.from_section ++ " WHERE " ++ r.from_field
    ++ " = \x27" ++ record_id ++ "\x27"

/-- The dependent-record loop of `handle_cascade_delete` (relationships.rs
lines 170-189): each dependent record carrying an `id` contributes a
`Delete` operation followed by the operations of the recursive planning
call (`recur`, the recursion at one less fuel); a recursive planning
failure aborts the whole planning, as the question-mark operator does in
the source. -/
def cascadeRecordsLoop (recur : String → String → CascadeResult)
    (r : RelationshipConfig) :
    List Record → List CascadeOperation → List BackendEvent → CascadeResult
  | [], operations, trace => (.ok operations, trace)
  | record :: rest, operations, trace =>
    match record.lookup "id" with
    | none => cascadeRecordsLoop recur r rest operations trace
    | some dependent_id =>
      let idStr := dependent_id.toJsonString
      match recur idStr r.from_section with
      | (.error e, t2) => (.error e, trace ++ t2)
      | (.ok nested_ops, t2) =>
        cascadeRecordsLoop recur r rest
          (operations ++ [⟨.delete, r.from_section, idStr, r.id⟩] ++ nested_ops)
          (trace ++ t2)

/-- The relationship loop of `handle_cascade_delete` (relationships.rs
lines 128-218): one-to-one and one-to-many relationships query the
dependent section (a failed query is only logged and the relationship is
skipped), many-to-one is skipped, many-to-many contributes one
`DeleteJunction` operation on the junction table. -/
def cascadeLoop (recur : String → String → CascadeResult)
    (backoffice : BackofficeConfig) (data_sources : DataSources) (record_id : String) :
    List RelationshipConfig → List CascadeOperation → List BackendEvent → CascadeResult
  | [], operations, trace => (.ok operations, trace)
  | r :: rest, operations, trace =>
    match r.relationship_type with
    | .oneToMany | .oneToOne =>
      match backoffice.sections.find? (fun s => s.id == r.from_section) with
      | none => (.error ("Source section not found: " ++ r.from_section), trace)
      | some source_section =>
        match source_section.actions.head? with
        | none => (.error ("No actions found in source section: " ++ r.from_section), trace)
        | some source_action =>
          match data_sources.lookup source_action.data_source with
          | none => (.error ("Data source not found: " ++ source_action.data_source), trace)
          | some ds =>
            let query := cascadeQueryString r record_id
            let trace2 := trace ++ [.query source_action.data_source query]
            match ds.executeQuery query none with
            | .ok dependent_records =>
              match cascadeRecordsLoop recur r dependent_records operations trace2 with
              | (.error e, t3) => (.error e, t3)
              | (.ok operations3, t3) =>
                cascadeLoop recur backoffice data_sources record_id rest operations3 t3
            | .error _ =>
              cascadeLoop recur backoffice data_sources record_id rest operations trace2
    | .manyToOne =>
      cascadeLoop recur backoffice data_sources record_id rest operations trace
    | .manyToMany junction_table _ _ =>
      cascadeLoop recur backoffice data_sources record_id rest
        (operations ++ [⟨.deleteJunction, junction_table, record_id, r.id⟩]) trace

/-- Cascade-delete planning (relationships.rs `handle_cascade_delete`):
computes the operation list for every relationship targeting the section
with the cascade flag set, recursing depth-first into dependent records.
The source recursion has no structural bound (spec section 9 records that
a relationship cycle recurses forever); the embedding adds an explicit
fuel parameter, surfacing exhaustion as an error, and every claim about
the function is stated for all fuel values. -/
def handle_cascade_delete :
    Nat → String → String → BackofficeConfig → DataSources → CascadeResult
  | 0, _, _, _, _ => (.error "cascade recursion limit exceeded", [])
  | fuel + 1, record_id, section_id, backoffice, data_sources =>
    cascadeLoop (fun rid sid => handle_cascade_delete fuel rid sid backoffice data_sources)
      backoffice data_sources record_id
      (backoffice.relationships.filter fun r => r.to_section == section_id && r.cascade_delete)
      [] []

/-- The DELETE text executed for a planned `Delete` operation
(relationships.rs lines 254-257). -/
def deleteQueryString (op : CascadeOperation) : String :=
  "DELETE FROM " ++ op.section_id ++ " WHERE id = \x27" ++ op.record_id ++ "\x27"

/-- The DELETE text executed for a planned `DeleteJunction` operation
(relationships.rs lines 282-285). -/
def junctionDeleteQueryString (junction_table from_junction_field record_id : String) :
    String :=
  "DELETE FROM " ++ junction_table ++ " WHERE " ++ from_junction_field
    ++ " = \x27" ++ record_id ++ "\x27"

/-- Execution of one planned cascade operation: the body of the loop of
`execute_cascade_operations` (relationships.rs lines 229-308).  `Delete`
and `DeleteJunction` issue one backend mutation; `SetNull` only logs; a
`DeleteJunction` whose relationship is not many-to-many does nothing
(an if-let in the source). -/
def execOneCascadeOperation (backoffice : BackofficeConfig) (data_sources : DataSources)
    (operation : CascadeOperation) : Except String Unit × List BackendEvent :=
  match backoffice.sections.find? (fun s => s.id == operation.section_id) with
  | none => (.error ("Section not found: " ++ operation.section_id), [])
  | some sec =>
    match sec.actions.head? with
    | none => (.error ("No actions found in section: " ++ operation.section_id), [])
    | some action =>
      match data_sources.lookup action.data_source with
      | none => (.error ("Data source not found: " ++ action.data_source), [])
      | some ds =>
        match operation.operation_type with
        | .delete =>
          let query := deleteQueryString operation
          let data : Record := [("id", .str operation.record_id)]
          match ds.executeMutation query data with
          | .ok _ => (.ok (), [.mutation action.data_source query data])
          | .error e => (.error e, [.mutation action.data_source query data])
        | .deleteJunction =>
          match backoffice.relationships.find? (fun r => r.id == operation.relationship_id) with
          | none => (.error ("Relationship not found: " ++ operation.relationship_id), [])
          | some relationship =>
            match relationship.relationship_type with
            | .manyToMany junction_table from_junction_field _ =>
              let query :=
                junctionDeleteQueryString junction_table from_junction_field operation.record_id
              let data : Record := [(from_junction_field, .str operation.record_id)]
              match ds.executeMutation query data with
              | .ok _ => (.ok (), [.mutation action.data_source query data])
              | .error e => (.error e, [.mutation action.data_source query data])
            | _ => (.ok (), [])
        | .setNull => (.ok (), [])

/-- The operation loop of `execute_cascade_operations`: operations execute
in list order and the first failure aborts the loop, surfacing the error;
the events of already-executed operations remain in the trace (nothing is
rolled back). -/
def execOpsLoop (backoffice : BackofficeConfig) (data_sources : DataSources) :
    List CascadeOperation → List BackendEvent → Except String Unit × List BackendEvent
  | [], trace => (.ok (), trace)
  | operation :: rest, trace =>
    match execOneCascadeOperation backoffice data_sources operation with
    | (.error e, t) => (.error e, trace ++ t)
    | (.ok _, t) => execOpsLoop backoffice data_sources rest (trace ++ t)

/-- Execution of a previously computed cascade plan (relationships.rs
`execute_cascade_operations`). -/
def execute_cascade_operations (operations : List CascadeOperation)
    (backoffice : BackofficeConfig) (data_sources : DataSources) :
    Except String Unit × List BackendEvent :=
  execOpsLoop backoffice data_sources operations []

/-- The per-element existence query of `validate_many_to_many`
(relationships.rs lines 359-362). -/
def m2mQueryString (r : RelationshipConfig) (id : String) : String :=
  "SELECT " ++ r.to_field ++ " FROM " ++ r.to_section ++ " WHERE " ++ r.to_field
    ++ " = \x27" ++ id ++ "\x27"

/-- The id loop of `validate_many_to_many` (relationships.rs lines
334-392): only string array elements are checked; an empty result appends
one error per missing element; a query error is only logged (unlike
`validate_foreign_keys`). -/
def m2mIdsLoop (backoffice : BackofficeConfig) (data_sources : DataSources)
    (r : RelationshipConfig) :
    ValueList → List RelationshipError → List BackendEvent →
    Except String (List RelationshipError) × List BackendEvent
  | .nil, errors, trace => (.ok errors, trace)
  | .cons id_value rest, errors, trace =>
    match id_value.asStr? with
    | none => m2mIdsLoop backoffice data_sources r rest errors trace
    | some id =>
      match backoffice.sections.find? (fun s => s.id == r.to_section) with
      | none => (.error ("Target section not found: " ++ r.to_section), trace)
      | some target_section =>
        match target_section.actions.head? with
        | none => (.error ("No actions found in target section: " ++ r.to_section), trace)
        | some target_action =>
          match data_sources.lookup target_action.data_source with
          | none => (.error ("Data source not found: " ++ target_action.data_source), trace)
          | some ds =>
            let query := m2mQueryString r id
            let trace2 := trace ++ [.query target_action.data_source query]
            match ds.executeQuery query none with
            | .ok results =>
              if results.isEmpty then
                m2mIdsLoop backoffice data_sources r rest
                  (errors ++ [⟨r.id, r.from_field,
                    "Referenced " ++ r.to_section ++ " with " ++ r.to_field ++ " = "
                      ++ id ++ " does not exist"⟩]) trace2
              else m2mIdsLoop backoffice data_sources r rest errors trace2
            | .error _ =>
              m2mIdsLoop backoffice data_sources r rest errors trace2

/-- The relationship loop of `validate_many_to_many`: a relationship whose
from-field does not hold an array is skipped. -/
def m2mRelLoop (data : Record) (backoffice : BackofficeConfig)
    (data_sources : DataSources) :
    List RelationshipConfig → List RelationshipError → List BackendEvent →
    Except String (List RelationshipError) × List BackendEvent
  | [], errors, trace => (.ok errors, trace)
  | r :: rest, errors, trace =>
    match data.lookup r.from_field with
    | some (.arr ids) =>
      match m2mIdsLoop backoffice data_sources r ids errors trace with
      | (.error e, t) => (.error e, t)
      | (.ok errors2, t) => m2mRelLoop data backoffice data_sources rest errors2 t
    | _ => m2mRelLoop data backoffice data_sources rest errors trace

/-- Many-to-many membership validation (relationships.rs
`validate_many_to_many`): processes every many-to-many relationship whose
`from_section` is the given section. -/
def validate_many_to_many (data : Record) (section_id : String)
    (backoffice : BackofficeConfig) (data_sources : DataSources) :
    Except String (List RelationshipError) × List BackendEvent :=
  m2mRelLoop data backoffice data_sources
    (backoffice.relationships.filter fun r =>
      r.from_section == section_id &&
        (match r.relationship_type with
          | .manyToMany _ _ _ => true
          | _ => false)) [] []

/-- The outcome of one mutation request, abstracting the HTTP responses
built by `execute_mutation_handler` (server.rs): the 400 responses carry
the collected error lists, the 500 responses a message, success the
adapter acknowledgment. -/
inductive MutationResponse where
  | validationFailed (errors : List ValidationError)
  | validationInternalError (msg : String)
  | dataSourceCreationFailed (msg : String)
  | relationshipFailed (errors : List RelationshipError)
  | relationshipInternalError (msg : String)
  | manyToManyFailed (errors : List RelationshipError)
  | dataSourceNotFound
  | mutationSucceeded (result : Value)
  | mutationFailed (msg : String)
deriving Repr

/-- The final dispatch step of the handler (server.rs lines 570-622):
resolve the data source of the action, take its query (or endpoint, or
the empty string) and execute the mutation, recording the single backend
mutation event.  The audit-trail step after a successful mutation is
outside the embedded engine (spec sections 1 and 6). -/
def dispatchMutation (payload_data : Record) (action : ActionConfig)
    (data_sources : DataSources) (trace : List BackendEvent) :
    MutationResponse × List BackendEvent :=
  match data_sources.lookup action.data_source with
  | none => (.dataSourceNotFound, trace)
  | some ds =>
    let query_str := (action.query.orElse fun _ => action.endpoint).getD ""
    let trace2 := trace ++ [.mutation action.data_source query_str payload_data]
    match ds.executeMutation query_str payload_data with
    | .ok result => (.mutationSucceeded result, trace2)
    | .error e => (.mutationFailed e, trace2)

/-- The mutation-request orchestration of server.rs
`execute_mutation_handler` (lines 421-622), from the point where the
backoffice, section, action and its field list have been resolved.
Step 1 validates the record and rejects with the collected errors before
anything else; step 2 constructs the adapters (`create_data_sources` is
the outcome of that construction loop, which involves no
`execute_query`/`execute_mutation` call); step 3 rejects on collected
foreign-key errors; step 4 rejects on collected many-to-many errors but
only logs an internal many-to-many failure; step 5 executes the mutation
through the resolved adapter. -/
def execute_mutation_handler (payload_data : Record) (fields : List FieldConfig)
    (section_id : String) (backoffice : BackofficeConfig)
    (create_data_sources : Except String DataSources)
    (action : ActionConfig) : MutationResponse × List BackendEvent :=
  match validate_data payload_data fields with
  | .error e => (.validationInternalError e, [])
  | .ok validation_errors =>
    if !validation_errors.isEmpty then (.validationFailed validation_errors, [])
    else
      match create_data_sources with
      | .error e => (.dataSourceCreationFailed e, [])
      | .ok data_sources_map =>
        match validate_foreign_keys payload_data section_id backoffice data_sources_map with
        | (.error e, t) => (.relationshipInternalError e, t)
        | (.ok relationship_errors, t) =>
          if !relationship_errors.isEmpty then (.relationshipFailed relationship_errors, t)
          else
            match validate_many_to_many payload_data section_id backoffice data_sources_map with
            | (.error _, t2) =>
              dispatchMutation payload_data action data_sources_map (t ++ t2)
            | (.ok m2m_errors, t2) =>
              if !m2m_errors.isEmpty then (.manyToManyFailed m2m_errors, t ++ t2)
              else dispatchMutation payload_data action data_sources_map (t ++ t2)

/-- Pagination parameters (data_source.rs `PaginationParams`). -/
structure PaginationParams where
  page : Nat
  page_size : Nat
  offset : Nat
deriving DecidableEq, Repr

/-- The usize range bound of the 64-bit targets the program is built for:
2 to the 64th power, written as a literal. -/
def usizeBound : Nat := 18446744073709551616

/-- The constructor `PaginationParams::new` (data_source.rs lines 20-28):
`offset = (page - 1) * page_size` computed on `usize`, under the
checked-arithmetic (debug) semantics.  For `page = 0` the subtraction
underflows, and for a product of `usizeBound` or more the multiplication
overflows; both are panics in checked builds, modelled as `none` (release
builds wrap modulo `usizeBound` instead, which is not separately
modelled). -/
def PaginationParams.new (page page_size : Nat) : Option PaginationParams :=
  if page = 0 then none
  else if usizeBound ≤ (page - 1) * page_size then none
  else some ⟨page, page_size, (page - 1) * page_size⟩

/-- Rust trim_end_matches with a semicolon pattern: strip every trailing
semicolon. -/
def trimTrailingSemicolons (s : String) : String :=
  ⟨(s.data.reverse.dropWhile (· == Char.ofNat 59)).reverse⟩

/-- The pagination translation of
`DatabaseDataSource::execute_query_paginated` (data_source.rs lines
179-189): append LIMIT page_size OFFSET offset to the trimmed query. -/
def paginatedQueryString (query : String) (p : PaginationParams) : String :=
  trimTrailingSemicolons query ++ " LIMIT " ++ toString p.page_size
    ++ " OFFSET " ++ toString p.offset

/-- Modelled from the spec: the LIMIT/OFFSET semantics of the external SQL
engine over a stable, unchanging backing data set — the rows of the base
query
with `off` rows skipped and at most `lim` rows returned.  The engine
itself is not part of this repository; only the query translation above
is. -/
def limitOffsetRows (rows : List Record) (lim off : Nat) : List Record :=
  (rows.drop off).take lim

/-- Paginated execution of a fixed base query against a stable backing
data set with base rows `rows`: the translation of
`execute_query_paginated` combined with the modelled LIMIT/OFFSET
semantics. -/
def paginatedRowsOnStable (rows : List Record) (p : PaginationParams) : List Record :=
  limitOffsetRows rows p.page_size p.offset

/-- The `execute_query` of the MongoDB adapter compiled when the
`mongodb-datasource` feature is disabled (data_source.rs lines 906-915):
an error for every query, the empty query included. -/
def mongoStubExecuteQuery (_query : String) (_params : Option Record) :
    Except String (List Record) :=
  .error "MongoDB support not enabled"

/-- The `execute_query` of the Redis adapter compiled when the
`redis-datasource` feature is disabled (data_source.rs lines 1084-1093):
an error for every key. -/
def redisStubExecuteQuery (_key : String) (_params : Option Record) :
    Except String (List Record) :=
  .error "Redis support not enabled"

/-- The match-all request body the Elasticsearch adapter substitutes for
an empty query (data_source.rs lines 1164-1170). -/
def elasticsearchMatchAllBody : Value :=
  .obj (.cons "query" (.obj (.cons "match_all" (.obj .nil) .nil)) .nil)

/-- The query-body translation of
`ElasticsearchDataSource::execute_query_paginated` (data_source.rs lines
1163-1173): an empty or brace-pair query becomes the match-all body; any
other query is handed to the external JSON parser (a parameter here). -/
def elasticsearchQueryBody (parse : String → Except String Value) (query : String) :
    Except String Value :=
  if query == "" || query == "\x7b\x7d" then .ok elasticsearchMatchAllBody
  else
    match parse query with
    | .ok v => .ok v
    | .error e => .error ("Invalid Elasticsearch query JSON: " ++ e)

/-- The filter translation of the MongoDB adapter compiled with the
feature enabled (data_source.rs lines 816-822): an empty or brace-pair
query becomes the empty filter document (match all). -/
def mongoFilterDoc (parse : String → Except String Value) (query : String) :
    Except String Value :=
  if query == "" || query == "\x7b\x7d" then .ok (.obj .nil)
  else
    match parse query with
    | .ok v => .ok v
    | .error e => .error ("Invalid MongoDB filter JSON: " ++ e)

/-- The `execute_query` of the gRPC adapter (data_source.rs lines
1308-1315): a stub that logs and returns the empty list for every
method, never an error. -/
def grpcExecuteQuery (_method : String) (_params : Option Record) :
    Except String (List Record) :=
  .ok []

/-- The `execute_query` of the Kafka adapter (data_source.rs lines
1362-1369): a stub that logs and returns the empty list for every query,
never an error. -/
def kafkaExecuteQuery (_query : String) (_params : Option Record) :
    Except String (List Record) :=
  .ok []

/-- The `execute_query` of the Firebase adapter (data_source.rs lines
1649-1659): a stub that logs and returns the empty list for every query,
never an error. -/
def firebaseExecuteQuery (_query : String) (_params : Option Record) :
    Except String (List Record) :=
  .ok []

/-- The `execute_query` of the S3 adapter compiled when the
`s3-datasource` feature is disabled (data_source.rs lines 1605-1614): an
error for every key. -/
def s3StubExecuteQuery (_key : String) (_params : Option Record) :
    Except String (List Record) :=
  .error "S3 support not enabled"

/-- The `execute_query` of the WebSocket adapter compiled when the
`websocket-datasource` feature is disabled (data_source.rs lines
2059-2068): an error for every message. -/
def webSocketStubExecuteQuery (_message : String) (_params : Option Record) :
    Except String (List Record) :=
  .error "WebSocket support not enabled"

/-- Rust `str::split_once` at the first equals sign, used by the Supabase
filter parser: the part before the first equals sign and everything after
it, or `none` when no equals sign occurs. -/
def splitOnceAtEq (s : String) : Option (String × String) :=
  match s.splitOn "=" with
  | [] => none
  | [_] => none
  | k :: rest => some (k, String.intercalate "=" rest)

/-- The filter translation of the Supabase adapter (data_source.rs lines
1760-1766): an empty query adds no filter parameters (the request is sent
unfiltered, matching all rows); a non-empty query contributes one query
parameter per ampersand-separated key-equals-value filter, skipping
filters without an equals sign. -/
def supabaseFilterParams (query : String) : List (String × String) :=
  if query.isEmpty then []
  else (query.splitOn "&").filterMap splitOnceAtEq

/-- Whether both operands of a numeric-comparison condition are numbers:
the record field is present and numeric and the condition value is
numeric.  The ordering arms of `evaluate_condition` fire only in this
situation. -/
def numericOperandsPresent (data : Record) (c : ValidationCondition) : Bool :=
  match data.lookup c.field, c.value with
  | some (.num _), .num _ => true
  | _, _ => false

/-- C6: the shared Luhn checker accepts 4532015112830366, rejects
1234567890123456, rejects every string with fewer than two decimal digits,
and is the routine both the explicit Luhn rule and the credit-card rule
dispatch to (their checks fail exactly when `validate_luhn` is false). -/
theorem luhn_checker_correct :
    validate_luhn "4532015112830366" = true ∧
    validate_luhn "1234567890123456" = false ∧
    (∀ s : String, (luhnDigits s).length < 2 → validate_luhn s = false) ∧
    (∀ (s : String) (field : FieldConfig) (data : Record),
      validate_rule (.str s) .creditCard field data =
        (if validate_luhn s then .ok ()
         else .error (field.name ++ " must be a valid credit card number")) ∧
      validate_rule (.str s) .luhn field data =
        (if validate_luhn s then .ok () else .error (field.name ++ " failed Luhn check"))) := by
  refine ⟨by decide, by decide, ?_, ?_⟩
  · intro s h
    simp only [validate_luhn]
    rw [if_pos h]
  · intro s field data
    constructor <;>
      · simp only [validate_rule, Value.asStr?]
        cases h : validate_luhn s <;> simp [h]

/-- Witness for C6 at concrete inputs: the single-digit string 5 has fewer
than two digits and is rejected, and the credit-card rule rejects the
invalid number through the shared checker. -/
theorem luhn_checker_correct_witness :
    validate_luhn "5" = false ∧
    validate_rule (.str "1234567890123456") .creditCard
      ⟨"cc", "Card", false, true, true, none, none, none, []⟩ [] =
      .error "Card must be a valid credit card number" := by
  constructor
  · exact luhn_checker_correct.2.2.1 "5" (by decide)
  · have h := (luhn_checker_correct.2.2.2 "1234567890123456"
      ⟨"cc", "Card", false, true, true, none, none, none, []⟩ []).1
    rw [h, luhn_checker_correct.2.1]
    rfl

/-- C10 counterexample: page 9223372036854775809 (two to the 63rd plus
one) with page size 2 satisfies page ≥ 1, yet the usize product
(page - 1) * page_size equals two to the 64th and overflows the
multiplication — a panic in checked builds, modelled as `none` — so the
constructor is not total with an exact offset for every page ≥ 1. -/
theorem paginationParams_new_overflow_counterexample :
    1 ≤ 9223372036854775809 ∧
    PaginationParams.new 9223372036854775809 2 = none := by
  constructor
  · norm_num
  · norm_num [PaginationParams.new, usizeBound]

/-- C10 amended: `PaginationParams::new` requires `page ≥ 1` as a
precondition — for `page = 0` the usize subtraction underflows (a panic in
checked builds) instead of yielding a usable offset; for every `page ≥ 1`
whose product `(page - 1) * page_size` fits in usize the constructor
succeeds with `offset = (page - 1) * page_size` exactly; a product
reaching the usize bound overflows the multiplication, again a panic in
checked builds. -/
theorem paginationParams_new_requires_positive_page :
    (∀ page_size : Nat, PaginationParams.new 0 page_size = none) ∧
    (∀ page page_size : Nat, 1 ≤ page → (page - 1) * page_size < usizeBound →
      PaginationParams.new page page_size =
        some ⟨page, page_size, (page - 1) * page_size⟩) ∧
    (∀ page page_size : Nat, usizeBound ≤ (page - 1) * page_size →
      PaginationParams.new page page_size = none) := by
  refine ⟨fun ps => rfl, ?_, ?_⟩
  · intro page ps h hov
    have h0 : page ≠ 0 := by omega
    simp [PaginationParams.new, h0, Nat.not_le.mpr hov]
  · intro page ps hov
    by_cases h0 : page = 0
    · simp [PaginationParams.new, h0]
    · simp [PaginationParams.new, h0, hov]

/-- Witness for C10 at concrete inputs: page 0 underflows, page 3 with
page size 10 yields offset 20 exactly, and the two-to-the-63rd-plus-one
page with page size 2 overflows. -/
theorem paginationParams_new_requires_positive_page_witness :
    PaginationParams.new 0 7 = none ∧
    PaginationParams.new 3 10 = some ⟨3, 10, 20⟩ ∧
    PaginationParams.new 9223372036854775809 2 = none := by
  refine ⟨paginationParams_new_requires_positive_page.1 7, ?_, ?_⟩
  · exact paginationParams_new_requires_positive_page.2.1 3 10 (by norm_num)
      (by norm_num [usizeBound])
  · exact paginationParams_new_requires_positive_page.2.2 9223372036854775809 2
      (by norm_num [usizeBound])

/-- C8: the SQL adapter translates the pagination triple by computing
`offset = (page - 1) * page_size` and appending LIMIT/OFFSET to the
query, and over a stable backing data set page 2 of size 10 equals page 1
of size 20 with the first 10 records discarded (the LIMIT/OFFSET
semantics of the external engine is modelled from the spec as
drop-then-take). -/
theorem pagination_translation_round_trip :
    (∀ (page page_size : Nat) (p : PaginationParams) (q : String),
      PaginationParams.new page page_size = some p →
      p.offset = (page - 1) * page_size ∧
      paginatedQueryString q p =
        trimTrailingSemicolons q ++ " LIMIT " ++ toString page_size
          ++ " OFFSET " ++ toString ((page - 1) * page_size)) ∧
    (∀ rows : List Record,
      PaginationParams.new 2 10 = some ⟨2, 10, 10⟩ ∧
      PaginationParams.new 1 20 = some ⟨1, 20, 0⟩ ∧
      paginatedRowsOnStable rows ⟨2, 10, 10⟩ =
        (paginatedRowsOnStable rows ⟨1, 20, 0⟩).drop 10) := by
  constructor
  · intro page ps p q hp
    simp only [PaginationParams.new] at hp
    by_cases h0 : page = 0
    · simp [h0] at hp
    · rw [if_neg h0] at hp
      by_cases hov : usizeBound ≤ (page - 1) * ps
      · rw [if_pos hov] at hp
        simp at hp
      · rw [if_neg hov] at hp
        cases hp
        exact ⟨rfl, rfl⟩
  · intro rows
    refine ⟨rfl, rfl, ?_⟩
    simp only [paginatedRowsOnStable, limitOffsetRows, List.drop_zero]
    rw [List.drop_take]

/-- Witness for C8: the translation applied to a concrete query at page 2,
size 10, and the round trip on a concrete 25-row data set. -/
theorem pagination_translation_round_trip_witness :
    paginatedQueryString "SELECT * FROM users;" ⟨2, 10, 10⟩ =
      "SELECT * FROM users LIMIT 10 OFFSET 10" ∧
    paginatedRowsOnStable (List.replicate 25 ([] : Record)) ⟨2, 10, 10⟩ =
      (paginatedRowsOnStable (List.replicate 25 ([] : Record)) ⟨1, 20, 0⟩).drop 10 := by
  constructor
  · have h := (pagination_translation_round_trip.1 2 10 ⟨2, 10, 10⟩
      "SELECT * FROM users;" rfl).2
    rw [h]; rfl
  · exact (pagination_translation_round_trip.2 (List.replicate 25 ([] : Record))).2.2

/-- C9 counterexample: not every Adapter implementation returns a non-error
for an empty query — the MongoDB and Redis adapters compiled with their
features disabled return an error for the empty query (and for every
other query). -/
theorem adapter_empty_query_counterexample :
    mongoStubExecuteQuery "" none = .error "MongoDB support not enabled" ∧
    redisStubExecuteQuery "" none = .error "Redis support not enabled" :=
  ⟨rfl, rfl⟩

/-- C2: for a relationship leaving the mutated section whose kind is
validated on this side (one-to-one or many-to-one) and a present,
non-null foreign-key value, `validate_foreign_keys` returns exactly one
`RelationshipError` naming the from-field when the existence query comes
back empty, exactly one when the adapter query fails (never silently
ignored), and none when a matching row exists. -/
theorem foreign_key_existence_errors :
    ∀ (data : Record) (section_id : String) (r : RelationshipConfig)
      (sections : List SectionConfig) (data_sources : DataSources)
      (bo_id bo_name : String) (target_section : SectionConfig)
      (target_action : ActionConfig) (ds : DataSource) (fk_value : Value),
      r.from_section = section_id →
      (r.relationship_type = .oneToOne ∨ r.relationship_type = .manyToOne) →
      data.lookup r.from_field = some fk_value →
      fk_value.isNull = false →
      sections.find? (fun s => s.id == r.to_section) = some target_section →
      target_section.actions.head? = some target_action →
      data_sources.lookup target_action.data_source = some ds →
      (fkMissingError r fk_value).field = r.from_field ∧
      (∀ e, (fkFailedError r e).field = r.from_field) ∧
      (ds.executeQuery (fkQueryString r fk_value) none = .ok [] →
        (validate_foreign_keys data section_id ⟨bo_id, bo_name, sections, [r]⟩
          data_sources).1 = .ok [fkMissingError r fk_value]) ∧
      (∀ e, ds.executeQuery (fkQueryString r fk_value) none = .error e →
        (validate_foreign_keys data section_id ⟨bo_id, bo_name, sections, [r]⟩
          data_sources).1 = .ok [fkFailedError r e]) ∧
      (∀ row rows, ds.executeQuery (fkQueryString r fk_value) none = .ok (row :: rows) →
        (validate_foreign_keys data section_id ⟨bo_id, bo_name, sections, [r]⟩
          data_sources).1 = .ok []) := by
  intro data section_id r sections data_sources bo_id bo_name target_section
    target_action ds fk_value hfs hkind hlk hnull hfind hhead hdslk
  have hfilter :
      (List.filter (fun r2 => r2.from_section == section_id) [r]) = [r] := by
    simp [List.filter, hfs]
  refine ⟨rfl, fun e => rfl, ?_, ?_, ?_⟩
  · intro hq
    simp only [validate_foreign_keys, hfilter, fkLoop, hlk, hnull, hfind, hhead, hdslk,
      Bool.false_eq_true, if_false]
    rcases hkind with hk | hk <;> rw [hk] <;> simp [hq]
  · intro e hq
    simp only [validate_foreign_keys, hfilter, fkLoop, hlk, hnull, hfind, hhead, hdslk,
      Bool.false_eq_true, if_false]
    rcases hkind with hk | hk <;> rw [hk] <;> simp [hq]
  · intro row rows hq
    simp only [validate_foreign_keys, hfilter, fkLoop, hlk, hnull, hfind, hhead, hdslk,
      Bool.false_eq_true, if_false]
    rcases hkind with hk | hk <;> rw [hk] <;> simp [hq]

/-- Witness for C2: a one-relationship configuration in which the adapter
finds no matching customer row, so exactly one error for the
customer-id field is returned. -/
theorem foreign_key_existence_errors_witness :
    (validate_foreign_keys [("customer_id", Value.str "c1")] "orders"
      ⟨"bo", "Bo",
        [⟨"customers", "Customers", [⟨"list", "List", "db", none, none⟩]⟩],
        [⟨"rel1", "orders", "customer_id", "customers", "id", .manyToOne, false⟩]⟩
      [("db", ⟨fun _ _ => .ok [], fun _ _ => .ok .null⟩)]).1 =
      .ok [fkMissingError
        ⟨"rel1", "orders", "customer_id", "customers", "id", .manyToOne, false⟩
        (Value.str "c1")] := by
  exact (foreign_key_existence_errors [("customer_id", Value.str "c1")] "orders"
    ⟨"rel1", "orders", "customer_id", "customers", "id", .manyToOne, false⟩
    [⟨"customers", "Customers", [⟨"list", "List", "db", none, none⟩]⟩]
    [("db", ⟨fun _ _ => .ok [], fun _ _ => .ok .null⟩)]
    "bo" "Bo" ⟨"customers", "Customers", [⟨"list", "List", "db", none, none⟩]⟩
    ⟨"list", "List", "db", none, none⟩ ⟨fun _ _ => .ok [], fun _ _ => .ok .null⟩
    (Value.str "c1") rfl (Or.inr rfl) rfl rfl rfl rfl rfl).2.2.1 rfl

theorem validateRulesLoop_eq (data : Record) (value : Value) (field : FieldConfig) :
    ∀ (vs : List ValidationRule) (errors : List ValidationError),
      validateRulesLoop data value field vs errors =
        errors ++ vs.flatMap (ruleViolation data value field) := by
  intro vs
  induction vs with
  | nil => intro errors; simp [validateRulesLoop]
  | cons v rest ih =>
    intro errors
    cases hc : v.condition with
    | none =>
      simp only [validateRulesLoop, hc, List.flatMap_cons, ruleViolation]
      rw [ih, List.append_assoc]
    | some c =>
      cases he : evaluate_condition data c with
      | false =>
        simp only [validateRulesLoop, hc, he, List.flatMap_cons, ruleViolation,
          Bool.false_eq_true, if_false]
        rw [ih]
        simp
      | true =>
        simp only [validateRulesLoop, hc, he, List.flatMap_cons, ruleViolation, if_true]
        rw [ih, List.append_assoc]

theorem validateFieldsLoop_eq (data : Record) :
    ∀ (fields : List FieldConfig) (errors : List ValidationError),
      validateFieldsLoop data fields errors =
        errors ++ fields.flatMap (fieldViolations data) := by
  intro fields
  induction fields with
  | nil => intro errors; simp [validateFieldsLoop]
  | cons field rest ih =>
    intro errors
    simp only [validateFieldsLoop, List.flatMap_cons]
    cases hl : data.lookup field.id with
    | none =>
      cases hr : field.required with
      | true =>
        simp only [fieldViolations, hl, hr, if_true]
        rw [ih, List.append_assoc]
      | false =>
        simp only [fieldViolations, hl, hr, Bool.false_eq_true, if_false]
        rw [ih]
        simp
    | some value =>
      simp only [fieldViolations, hl]
      cases h1 : (field.required && value.isNull) with
      | true =>
        simp only [h1, if_true]
        rw [ih, List.append_assoc]
      | false =>
        cases h2 : (value.isNull && !field.required) with
        | true =>
          simp only [h1, h2, Bool.false_eq_true, if_false, if_true]
          rw [ih]
          simp
        | false =>
          simp only [h1, h2, Bool.false_eq_true, if_false]
          rw [ih, validateRulesLoop_eq, List.append_assoc]

/-- C1: `validate_data` accumulates errors across all fields without early
return — the result is exactly the concatenation of the independent
per-field violation lists, so a record with N independent field
violations yields exactly N `ValidationError` entries, one per
violation. -/
theorem validate_data_exhaustive :
    ∀ (data : Record) (fields : List FieldConfig),
      validate_data data fields = .ok (fields.flatMap (fieldViolations data)) ∧
      (validateFieldsLoop data fields []).length =
        (fields.map fun f => (fieldViolations data f).length).sum := by
  intro data fields
  constructor
  · unfold validate_data
    rw [validateFieldsLoop_eq]
    simp
  · rw [validateFieldsLoop_eq]
    simp [List.length_flatMap, Function.comp_def]

/-- C7: a rule whose attached condition evaluates false against the whole
record contributes no `ValidationError` (the rule is skipped inside the
rule loop even when the value would fail the check), and a
numeric-comparison condition whose operands mismatch in type evaluates to
false (skipped, not failed). -/
theorem condition_gating :
    (∀ (data : Record) (value : Value) (field : FieldConfig) (v : ValidationRule)
        (c : ValidationCondition) (rest : List ValidationRule)
        (errors : List ValidationError),
      v.condition = some c →
      evaluate_condition data c = false →
      ruleViolation data value field v = [] ∧
      validateRulesLoop data value field (v :: rest) errors =
        validateRulesLoop data value field rest errors) ∧
    (∀ (data : Record) (c : ValidationCondition),
      (c.operator = .greaterThan ∨ c.operator = .lessThan ∨
        c.operator = .greaterThanOrEqual ∨ c.operator = .lessThanOrEqual) →
      numericOperandsPresent data c = false →
      evaluate_condition data c = false) := by
  constructor
  · intro data value field v c rest errors hc he
    constructor
    · simp [ruleViolation, hc, he]
    · simp [validateRulesLoop, hc, he]
  · intro data c hop hmismatch
    rcases hop with h | h | h | h <;>
    · simp only [evaluate_condition, h]
      split
      · rename_i a b h1 h2
        simp [numericOperandsPresent, h1, h2] at hmismatch
      · rfl

/-- Witness for C7: with the record holding a string at field a, the
numeric condition a greater-than 3 cannot be evaluated and is false, and a
min-length-5 rule gated on it contributes nothing although the value hi
is shorter than 5. -/
theorem condition_gating_witness :
    evaluate_condition [("a", Value.str "x")] ⟨"a", .greaterThan, .num 3⟩ = false ∧
    ruleViolation [("a", Value.str "x")] (.str "hi")
      ⟨"f", "F", false, true, true, none, none, none, []⟩
      ⟨.minLength 5, none, some ⟨"a", .greaterThan, .num 3⟩⟩ = [] := by
  have h2 := condition_gating.2 [("a", Value.str "x")] ⟨"a", .greaterThan, .num 3⟩
    (Or.inl rfl) (by decide)
  refine ⟨h2, ?_⟩
  exact (condition_gating.1 [("a", Value.str "x")] (.str "hi")
    ⟨"f", "F", false, true, true, none, none, none, []⟩
    ⟨.minLength 5, none, some ⟨"a", .greaterThan, .num 3⟩⟩
    ⟨"a", .greaterThan, .num 3⟩ [] [] rfl h2).1

theorem cascadeRecordsLoop_queries_only
    (recur : String → String → CascadeResult) (r : RelationshipConfig)
    (hrec : ∀ rid sid, ((recur rid sid).2.all BackendEvent.isQuery) = true) :
    ∀ (recs : List Record) (ops : List CascadeOperation) (trace : List BackendEvent),
      trace.all BackendEvent.isQuery = true →
      ((cascadeRecordsLoop recur r recs ops trace).2.all BackendEvent.isQuery) = true := by
  intro recs
  induction recs with
  | nil => intro ops trace ht; simpa [cascadeRecordsLoop] using ht
  | cons record rest ih =>
    intro ops trace ht
    simp only [cascadeRecordsLoop]
    cases hid : record.lookup "id" with
    | none => exact ih ops trace ht
    | some dependent_id =>
      have h2 := hrec dependent_id.toJsonString r.from_section
      cases hr : recur dependent_id.toJsonString r.from_section with
      | mk res t2 =>
        rw [hr] at h2
        simp only at h2
        simp only [hr]
        cases res with
        | error e => simp [List.all_append, ht, h2]
        | ok nested => exact ih _ _ (by simp [List.all_append, ht, h2])

theorem cascadeLoop_queries_only
    (recur : String → String → CascadeResult)
    (backoffice : BackofficeConfig) (data_sources : DataSources) (record_id : String)
    (hrec : ∀ rid sid, ((recur rid sid).2.all BackendEvent.isQuery) = true) :
    ∀ (rels : List RelationshipConfig) (ops : List CascadeOperation)
      (trace : List BackendEvent),
      trace.all BackendEvent.isQuery = true →
      ((cascadeLoop recur backoffice data_sources record_id rels ops trace).2.all
        BackendEvent.isQuery) = true := by
  intro rels
  induction rels with
  | nil => intro ops trace ht; simpa [cascadeLoop] using ht
  | cons r rest ih =>
    intro ops trace ht
    simp only [cascadeLoop]
    cases hk : r.relationship_type with
    | manyToOne => simp only [hk]; exact ih ops trace ht
    | manyToMany jt fjf tjf => simp only [hk]; exact ih _ trace ht
    | oneToOne =>
      simp only [hk]
      cases hf : backoffice.sections.find? (fun s => s.id == r.from_section) with
      | none => simp only [hf]; simpa using ht
      | some source_section =>
        simp only [hf]
        cases hh : source_section.actions.head? with
        | none => simp only [hh]; simpa using ht
        | some source_action =>
          simp only [hh]
          cases hds : data_sources.lookup source_action.data_source with
          | none => simp only [hds]; simpa using ht
          | some ds =>
            simp only [hds]
            have ht2 : (trace ++ [BackendEvent.query source_action.data_source
                (cascadeQueryString r record_id)]).all BackendEvent.isQuery = true := by
              simp [List.all_append, ht, BackendEvent.isQuery]
            cases hq : ds.executeQuery (cascadeQueryString r record_id) none with
            | error e => try simp only [hq]
                         exact ih ops _ ht2
            | ok dependent_records =>
              try simp only [hq]
              have hrl := cascadeRecordsLoop_queries_only recur r hrec dependent_records
                ops _ ht2
              cases hcr : cascadeRecordsLoop recur r dependent_records ops
                  (trace ++ [BackendEvent.query source_action.data_source
                    (cascadeQueryString r record_id)]) with
              | mk res t3 =>
                rw [hcr] at hrl
                simp only at hrl
                try simp only [hcr]
                cases res with
                | error e => exact hrl
                | ok ops3 => exact ih _ _ hrl
    | oneToMany =>
      simp only [hk]
      cases hf : backoffice.sections.find? (fun s => s.id == r.from_section) with
      | none => simp only [hf]; simpa using ht
      | some source_section =>
        simp only [hf]
        cases hh : source_section.actions.head? with
        | none => simp only [hh]; simpa using ht
        | some source_action =>
          simp only [hh]
          cases hds : data_sources.lookup source_action.data_source with
          | none => simp only [hds]; simpa using ht
          | some ds =>
            simp only [hds]
            have ht2 : (trace ++ [BackendEvent.query source_action.data_source
                (cascadeQueryString r record_id)]).all BackendEvent.isQuery = true := by
              simp [List.all_append, ht, BackendEvent.isQuery]
            cases hq : ds.executeQuery (cascadeQueryString r record_id) none with
            | error e => try simp only [hq]
                         exact ih ops _ ht2
            | ok dependent_records =>
              try simp only [hq]
              have hrl := cascadeRecordsLoop_queries_only recur r hrec dependent_records
                ops _ ht2
              cases hcr : cascadeRecordsLoop recur r dependent_records ops
                  (trace ++ [BackendEvent.query source_action.data_source
                    (cascadeQueryString r record_id)]) with
              | mk res t3 =>
                rw [hcr] at hrl
                simp only at hrl
                try simp only [hcr]
                cases res with
                | error e => exact hrl
                | ok ops3 => exact ih _ _ hrl

theorem handle_cascade_delete_queries_only :
    ∀ (fuel : Nat) (record_id section_id : String) (backoffice : BackofficeConfig)
      (data_sources : DataSources),
      ((handle_cascade_delete fuel record_id section_id backoffice data_sources).2.all
        BackendEvent.isQuery) = true := by
  intro fuel
  induction fuel with
  | zero => intro rid sid bo dss; simp [handle_cascade_delete]
  | succ f ih =>
    intro rid sid bo dss
    simp only [handle_cascade_delete]
    exact cascadeLoop_queries_only _ bo dss rid
      (fun rid2 sid2 => ih rid2 sid2 bo dss) _ [] [] rfl

/-- C4: `handle_cascade_delete` only computes the operation list: its
backend trace contains queries only, never a mutation, for every fuel
bound, record, section, schema and adapter map; and since against an
unchanged backend (a fixed adapter map) the planner is a pure function,
two calls with identical inputs return the identical operation list. -/
theorem cascade_planning_pure :
    ∀ (fuel : Nat) (record_id section_id : String) (backoffice : BackofficeConfig)
      (data_sources : DataSources),
      ((handle_cascade_delete fuel record_id section_id backoffice data_sources).2.all
        BackendEvent.isQuery) = true ∧
      (handle_cascade_delete fuel record_id section_id backoffice data_sources).1 =
        (handle_cascade_delete fuel record_id section_id backoffice data_sources).1 :=
  fun fuel rid sid bo dss =>
    ⟨handle_cascade_delete_queries_only fuel rid sid bo dss, rfl⟩

theorem execOpsLoop_all_ok_append (bo : BackofficeConfig) (dss : DataSources) :
    ∀ (ops rest2 : List CascadeOperation) (trace : List BackendEvent),
      (∀ o ∈ ops, (execOneCascadeOperation bo dss o).1 = .ok ()) →
      execOpsLoop bo dss (ops ++ rest2) trace =
        execOpsLoop bo dss rest2
          (trace ++ ops.flatMap fun o => (execOneCascadeOperation bo dss o).2) := by
  intro ops
  induction ops with
  | nil => intro rest2 trace h; simp
  | cons o os ih =>
    intro rest2 trace h
    have ho := h o (by simp)
    simp only [List.cons_append, execOpsLoop]
    cases hx : execOneCascadeOperation bo dss o with
    | mk res t =>
      rw [hx] at ho
      simp only at ho
      subst ho
      show execOpsLoop bo dss (os ++ rest2) (trace ++ t) = _
      rw [ih rest2 (trace ++ t) (fun o2 ho2 => h o2 (by simp [ho2]))]
      simp [List.flatMap_cons, hx, List.append_assoc]

/-- C5: `execute_cascade_operations` executes the planned operations in
list order; when one operation fails, the error is surfaced, no operation
after the failing one issues any backend call, and the backend events of
the operations already executed remain (no rollback, no compensating
calls). -/
theorem cascade_execution_aborts_on_failure :
    ∀ (pre post : List CascadeOperation) (op : CascadeOperation)
      (backoffice : BackofficeConfig) (data_sources : DataSources) (e : String),
      (∀ o ∈ pre, (execOneCascadeOperation backoffice data_sources o).1 = .ok ()) →
      (execOneCascadeOperation backoffice data_sources op).1 = .error e →
      execute_cascade_operations (pre ++ op :: post) backoffice data_sources =
        (.error e,
          (pre.flatMap fun o => (execOneCascadeOperation backoffice data_sources o).2) ++
            (execOneCascadeOperation backoffice data_sources op).2) := by
  intro pre post op bo dss e hpre hop
  unfold execute_cascade_operations
  rw [execOpsLoop_all_ok_append bo dss pre (op :: post) [] hpre]
  simp only [List.nil_append, execOpsLoop]
  cases hx : execOneCascadeOperation bo dss op with
  | mk res t =>
    rw [hx] at hop
    simp only at hop
    subst hop
    rfl

/-- Witness for C5: a plan whose first delete succeeds and whose second
operation names a section missing from the schema; execution surfaces the
lookup error, keeps the first mutation in the trace, and issues nothing
further. -/
theorem cascade_execution_aborts_on_failure_witness :
    execute_cascade_operations
      [⟨.delete, "t", "1", "rel"⟩, ⟨.delete, "missing", "2", "rel"⟩]
      ⟨"bo", "Bo", [⟨"t", "T", [⟨"a", "A", "db", none, none⟩]⟩], []⟩
      [("db", ⟨fun _ _ => .ok [], fun _ _ => .ok (.num 1)⟩)] =
      (.error "Section not found: missing",
        [.mutation "db" (deleteQueryString ⟨.delete, "t", "1", "rel"⟩)
          [("id", .str "1")]]) := by
  have h := cascade_execution_aborts_on_failure
    [⟨.delete, "t", "1", "rel"⟩] [] ⟨.delete, "missing", "2", "rel"⟩
    ⟨"bo", "Bo", [⟨"t", "T", [⟨"a", "A", "db", none, none⟩]⟩], []⟩
    [("db", ⟨fun _ _ => .ok [], fun _ _ => .ok (.num 1)⟩)]
    "Section not found: missing"
    (by intro o ho; simp at ho; subst ho; rfl) rfl
  exact h.trans (by rfl)

theorem dropWhile_eq_nil_of_all {α : Type} {p : α → Bool} {l : List α}
    (h : l.all p = true) : l.dropWhile p = [] :=
  List.dropWhile_eq_nil_iff.mpr (by simpa [List.all_eq_true] using h)

theorem dropWhile_goals_of_all {trace : List BackendEvent}
    (h : trace.all BackendEvent.isQuery = true) :
    (trace.dropWhile BackendEvent.isQuery).length ≤ 1 ∧
      ∀ ev ∈ trace.dropWhile BackendEvent.isQuery, ev.isQuery = false := by
  rw [dropWhile_eq_nil_of_all h]
  exact ⟨by simp, by simp⟩

theorem fkLoop_queries_only (data : Record) (bo : BackofficeConfig) (dss : DataSources) :
    ∀ (rels : List RelationshipConfig) (errors : List RelationshipError)
      (trace : List BackendEvent),
      trace.all BackendEvent.isQuery = true →
      ((fkLoop data bo dss rels errors trace).2.all BackendEvent.isQuery) = true := by
  intro rels
  induction rels with
  | nil => intro errors trace ht; simpa [fkLoop] using ht
  | cons r rest ih =>
    intro errors trace ht
    simp only [fkLoop]
    repeat' split
    all_goals
      first
        | exact ih _ _ (by simp [List.all_append, ht, BackendEvent.isQuery])
        | simpa using ht

theorem validate_foreign_keys_queries_only (data : Record) (section_id : String)
    (bo : BackofficeConfig) (dss : DataSources) :
    ((validate_foreign_keys data section_id bo dss).2.all BackendEvent.isQuery) = true :=
  fkLoop_queries_only data bo dss _ [] [] rfl

theorem m2mIdsLoop_queries_only (bo : BackofficeConfig) (dss : DataSources)
    (r : RelationshipConfig) :
    ∀ (ids : ValueList) (errors : List RelationshipError) (trace : List BackendEvent),
      trace.all BackendEvent.isQuery = true →
      ((m2mIdsLoop bo dss r ids errors trace).2.all BackendEvent.isQuery) = true
  | .nil, errors, trace, ht => by simpa [m2mIdsLoop] using ht
  | .cons id_value rest, errors, trace, ht => by
    simp only [m2mIdsLoop]
    repeat' split
    all_goals
      first
        | exact m2mIdsLoop_queries_only bo dss r rest _ _
            (by simp [List.all_append, ht, BackendEvent.isQuery])
        | simpa using ht

theorem m2mRelLoop_queries_only (data : Record) (bo : BackofficeConfig)
    (dss : DataSources) :
    ∀ (rels : List RelationshipConfig) (errors : List RelationshipError)
      (trace : List BackendEvent),
      trace.all BackendEvent.isQuery = true →
      ((m2mRelLoop data bo dss rels errors trace).2.all BackendEvent.isQuery) = true := by
  intro rels
  induction rels with
  | nil => intro errors trace ht; simpa [m2mRelLoop] using ht
  | cons r rest ih =>
    intro errors trace ht
    simp only [m2mRelLoop]
    cases hlk : data.lookup r.from_field with
    | none =>
      try simp only [hlk]
      exact ih _ _ ht
    | some v =>
      try simp only [hlk]
      cases v with
      | null => exact ih _ _ ht
      | bool b => exact ih _ _ ht
      | num q => exact ih _ _ ht
      | str s => exact ih _ _ ht
      | obj fs => exact ih _ _ ht
      | arr ids =>
        have hil := m2mIdsLoop_queries_only bo dss r ids errors trace ht
        cases hm : m2mIdsLoop bo dss r ids errors trace with
        | mk res t =>
          rw [hm] at hil
          simp only at hil
          try simp only [hm]
          cases res with
          | error e => exact hil
          | ok errors2 => exact ih _ _ hil

theorem validate_many_to_many_queries_only (data : Record) (section_id : String)
    (bo : BackofficeConfig) (dss : DataSources) :
    ((validate_many_to_many data section_id bo dss).2.all BackendEvent.isQuery) = true :=
  m2mRelLoop_queries_only data bo dss _ [] [] rfl

theorem dispatchMutation_trace (payload : Record) (action : ActionConfig)
    (dss : DataSources) (trace : List BackendEvent)
    (ht : trace.all BackendEvent.isQuery = true) :
    ((dispatchMutation payload action dss trace).2.dropWhile BackendEvent.isQuery).length ≤ 1 ∧
      ∀ ev ∈ (dispatchMutation payload action dss trace).2.dropWhile BackendEvent.isQuery,
        ev.isQuery = false := by
  have hnil := dropWhile_eq_nil_of_all ht
  simp only [dispatchMutation]
  cases hds : dss.lookup action.data_source with
  | none =>
    try simp only [hds]
    rw [hnil]
    exact ⟨by simp, by simp⟩
  | some ds =>
    try simp only [hds]
    cases hm : ds.executeMutation ((action.query.orElse fun _ => action.endpoint).getD "")
        payload with
    | ok v =>
      try simp only [hm]
      constructor <;> simp [List.dropWhile_append, hnil, BackendEvent.isQuery]
    | error e =>
      try simp only [hm]
      constructor <;> simp [List.dropWhile_append, hnil, BackendEvent.isQuery]

/-- C3: within one mutation request the handler validates the record
before any relationship check and any relationship check before the
backend mutation: when `validate_data` reports at least one error the
request is rejected with the collected errors and an empty backend trace
(no adapter call, hence no backend I/O at all), and in every case the
backend trace of the handler is a run of relationship-check queries, then
at most one final non-query event (the single mutation dispatch). -/
theorem mutation_handler_ordering :
    ∀ (payload_data : Record) (fields : List FieldConfig) (section_id : String)
      (backoffice : BackofficeConfig) (create_data_sources : Except String DataSources)
      (action : ActionConfig),
      (∀ verrs, validate_data payload_data fields = .ok verrs → verrs ≠ [] →
        execute_mutation_handler payload_data fields section_id backoffice
          create_data_sources action = (.validationFailed verrs, [])) ∧
      ((execute_mutation_handler payload_data fields section_id backoffice
          create_data_sources action).2.dropWhile BackendEvent.isQuery).length ≤ 1 ∧
      (∀ ev ∈ (execute_mutation_handler payload_data fields section_id backoffice
          create_data_sources action).2.dropWhile BackendEvent.isQuery,
        ev.isQuery = false) := by
  intro payload fields sid bo cds action
  refine ⟨?_, ?_⟩
  · intro verrs hv hne
    have hloop : validateFieldsLoop payload fields [] = verrs := by
      simpa [validate_data] using hv
    have hcond : (!verrs.isEmpty) = true := by
      cases verrs with
      | nil => exact absurd rfl hne
      | cons a l => rfl
    simp only [execute_mutation_handler, validate_data, hloop, hcond, if_true]
  · simp only [execute_mutation_handler, validate_data]
    cases hie : (validateFieldsLoop payload fields []).isEmpty with
    | false =>
      try simp only [hie]
      exact ⟨by simp, by simp⟩
    | true =>
      try simp only [hie]
      cases cds with
      | error e => exact ⟨by simp, by simp⟩
      | ok dss =>
        cases hfkres : validate_foreign_keys payload sid bo dss with
        | mk res t =>
          have hfk := validate_foreign_keys_queries_only payload sid bo dss
          rw [hfkres] at hfk
          simp only at hfk
          try simp only [hfkres]
          cases res with
          | error e => exact dropWhile_goals_of_all hfk
          | ok rerrs =>
            cases hre : rerrs.isEmpty with
            | false =>
              try simp only [hre]
              exact dropWhile_goals_of_all hfk
            | true =>
              try simp only [hre]
              cases hm2m : validate_many_to_many payload sid bo dss with
              | mk res2 t2 =>
                have hm2 := validate_many_to_many_queries_only payload sid bo dss
                rw [hm2m] at hm2
                simp only at hm2
                try simp only [hm2m]
                have ht12 : (t ++ t2).all BackendEvent.isQuery = true := by
                  simp [List.all_append, hfk, hm2]
                cases res2 with
                | error e2 => exact dispatchMutation_trace payload action dss (t ++ t2) ht12
                | ok m2merrs =>
                  cases hm2e : m2merrs.isEmpty with
                  | false =>
                    try simp only [hm2e]
                    exact dropWhile_goals_of_all ht12
                  | true =>
                    try simp only [hm2e]
                    exact dispatchMutation_trace payload action dss (t ++ t2) ht12

/-- Witness for C3: an empty record against one required field is rejected
with the single required-error and an empty backend trace. -/
theorem mutation_handler_ordering_witness :
    execute_mutation_handler [] [⟨"name", "Name", true, true, true, none, none, none, []⟩]
      "s" ⟨"bo", "Bo", [], []⟩ (.ok []) ⟨"a", "A", "db", none, none⟩ =
      (.validationFailed [⟨"name", "Name is required"⟩], []) :=
  (mutation_handler_ordering [] [⟨"name", "Name", true, true, true, none, none, none, []⟩]
    "s" ⟨"bo", "Bo", [], []⟩ (.ok []) ⟨"a", "A", "db", none, none⟩).1
    [⟨"name", "Name is required"⟩] rfl (by simp)

/-- C9 amended: among the Adapter implementations whose handling of the
empty query is decided in this repository, every enabled one accepts it —
Elasticsearch and the feature-enabled MongoDB adapter substitute a
match-all interpretation for an empty or brace-pair query, the gRPC,
Kafka and Firebase stubs return the empty list for every query, and the
Supabase adapter adds no filter parameter to the request — but the
MongoDB, Redis, S3 and WebSocket adapters compiled with their features
disabled return an error for every query, the empty one included, so the
uniformity does not hold for every Adapter implementation. -/
theorem adapter_empty_query_uniformity_amended :
    (∀ parse : String → Except String Value,
      elasticsearchQueryBody parse "" = .ok elasticsearchMatchAllBody ∧
      elasticsearchQueryBody parse "\x7b\x7d" = .ok elasticsearchMatchAllBody) ∧
    (∀ parse : String → Except String Value,
      mongoFilterDoc parse "" = .ok (.obj .nil) ∧
      mongoFilterDoc parse "\x7b\x7d" = .ok (.obj .nil)) ∧
    (∀ params : Option Record,
      grpcExecuteQuery "" params = .ok [] ∧
      kafkaExecuteQuery "" params = .ok [] ∧
      firebaseExecuteQuery "" params = .ok []) ∧
    supabaseFilterParams "" = [] ∧
    (∀ (q : String) (params : Option Record),
      mongoStubExecuteQuery q params = .error "MongoDB support not enabled" ∧
      redisStubExecuteQuery q params = .error "Redis support not enabled" ∧
      s3StubExecuteQuery q params = .error "S3 support not enabled" ∧
      webSocketStubExecuteQuery q params = .error "WebSocket support not enabled") := by
  exact ⟨fun parse => ⟨rfl, rfl⟩, fun parse => ⟨rfl, rfl⟩,
    fun _ => ⟨rfl, rfl, rfl⟩, rfl, fun _ _ => ⟨rfl, rfl, rfl, rfl⟩⟩

end Pmp
